import Mathlib

/-!
Shallow embedding of the MonitorX resilient metrics pipeline
(`src/monitorx`), covering:

* `MetricsCollector._calculate_severity` (services/metrics_collector.py)
* `CircuitBreaker` (sdk/client.py)
* `MonitorXClient._retry_with_backoff`, metric collection entry points and
  `flush_buffer` (sdk/client.py)
* `AlertingService.send_alert` (services/alerting.py)
* `RateLimiter.is_allowed` and `RateLimitMiddleware.dispatch` (middleware/rate_limit.py)

Python floats and wall-clock instants are modelled as rationals `ℚ`;
exceptions as `Except`; the value an exception carries as a `ℕ` tag.
-/

namespace MonitorX

/-! ## Severity classification (`MetricsCollector._calculate_severity`) -/

/-- The four severity literals `"low" | "medium" | "high" | "critical"`. -/
inductive Severity where
  | low
  | medium
  | high
  | critical
deriving DecidableEq, Repr

/-- Severity as the string literal used by the Python source. -/
def Severity.str : Severity → String
  | .low => "low"
  | .medium => "medium"
  | .high => "high"
  | .critical => "critical"

/-- Position of a severity in the order low < medium < high < critical. -/
def Severity.rank : Severity → ℕ
  | .low => 0
  | .medium => 1
  | .high => 2
  | .critical => 3

/-- `MetricsCollector._calculate_severity(value, threshold)`:
`ratio = value / threshold`; `ratio >= 2.0 → "critical"`,
`ratio >= 1.5 → "high"`, `ratio >= 1.2 → "medium"`, else `"low"`. -/
def calculateSeverity (value threshold : ℚ) : Severity :=
  let ratio := value / threshold
  if ratio ≥ 2 then .critical
  else if ratio ≥ 3/2 then .high
  else if ratio ≥ 6/5 then .medium
  else .low

/-! ## Circuit breaker (`CircuitBreaker` in sdk/client.py) -/

/-- The breaker's `state` field: `"closed" | "open" | "half_open"`
(`open` is a Lean keyword, hence `opened`). -/
inductive BreakerState where
  | closed
  | opened
  | halfOpen
deriving DecidableEq, Repr

/-- The mutable state of a `CircuitBreaker` instance together with its
constructor parameters `failure_threshold` and `recovery_timeout`. -/
structure CircuitBreaker where
  failureThreshold : ℕ
  recoveryTimeout : ℚ
  failureCount : ℕ
  lastFailureTime : Option ℚ
  state : BreakerState
deriving DecidableEq, Repr

/-- `CircuitBreaker.record_failure`: increment `failure_count`, stamp
`last_failure_time`, and open the breaker once
`failure_count >= failure_threshold`. -/
def CircuitBreaker.recordFailure (cb : CircuitBreaker) (now : ℚ) : CircuitBreaker :=
  let cb' := { cb with failureCount := cb.failureCount + 1, lastFailureTime := some now }
  if cb'.failureThreshold ≤ cb'.failureCount then { cb' with state := .opened } else cb'

/-- `CircuitBreaker.reset`: zero the failure count, clear the failure time,
close the breaker. -/
def CircuitBreaker.reset (cb : CircuitBreaker) : CircuitBreaker :=
  { cb with failureCount := 0, lastFailureTime := none, state := .closed }

/-- Result of one guarded call: the wrapped function returned a value, the
wrapped function raised, or the breaker rejected the call while open. -/
inductive CallResult (A : Type) where
  | ok (a : A)
  | funcFailed (e : ℕ)
  | breakerOpenRejected
deriving DecidableEq, Repr

/-- The body shared by `call`/`call_async` after the open-state guard:
run the function; on success reset a half-open breaker, on an exception
record the failure and re-raise. `funcOutcome` is the wrapped function's
result (`.ok a` = returned `a`, `.error e` = raised exception `e`). -/
def CircuitBreaker.proceed (cb : CircuitBreaker) (now : ℚ)
    (funcOutcome : Except ℕ A) : CallResult A × CircuitBreaker :=
  match funcOutcome with
  | .ok a => (.ok a, if cb.state = .halfOpen then cb.reset else cb)
  | .error e => (.funcFailed e, cb.recordFailure now)

/-- `CircuitBreaker.call_async` at wall-clock instant `now`.  When the state
is `"open"`, the source computes `time.time() - self.last_failure_time`;
`last_failure_time` is always set in any state reachable as `"open"`
(only `record_failure` opens the breaker), so the `.getD 0` default is
never consulted on reachable states. -/
def CircuitBreaker.callAsync (cb : CircuitBreaker) (now : ℚ)
    (funcOutcome : Except ℕ A) : CallResult A × CircuitBreaker :=
  if cb.state = .opened then
    if cb.recoveryTimeout ≤ now - cb.lastFailureTime.getD 0 then
      CircuitBreaker.proceed { cb with state := .halfOpen } now funcOutcome
    else
      (.breakerOpenRejected, cb)
  else
    cb.proceed now funcOutcome

/-- Fold a list of timed call outcomes through the breaker. -/
def CircuitBreaker.runCalls (cb : CircuitBreaker)
    (events : List (ℚ × Except ℕ Unit)) : CircuitBreaker :=
  events.foldl (fun acc ev => (acc.callAsync ev.1 ev.2).2) cb

/-- Length of the longest run of consecutive `true` (= failure) entries. -/
def maxConsecFailures (l : List Bool) : ℕ :=
  (l.foldl (fun (acc : ℕ × ℕ) b =>
    if b then (max acc.1 (acc.2 + 1), acc.2 + 1) else (acc.1, 0)) (0, 0)).1

/-! ## Retry driver (`MonitorXClient._retry_with_backoff`) -/

/-- The exception surfaced by the retry driver: the wrapped function's own
exception, the breaker's `"Circuit breaker is OPEN"` exception, or the
`raise None` reached when `max_retries = 0` leaves `last_exception`
unset. -/
inductive RetryError where
  | funcError (e : ℕ)
  | breakerOpen
  | noneError
deriving DecidableEq, Repr

/-- Ghost view of one attempt's result as the exception it raised. -/
def callErr : CallResult A → Option RetryError
  | .ok _ => none
  | .funcFailed e => some (.funcError e)
  | .breakerOpenRejected => some .breakerOpen

/-- `self.circuit_breaker` may be `None` (`enable_circuit_breaker=False`);
one attempt either goes through the breaker or calls the function
directly. -/
def attemptOnce (cbOpt : Option CircuitBreaker) (now : ℚ)
    (funcOutcome : Except ℕ A) : CallResult A × Option CircuitBreaker :=
  match cbOpt with
  | some cb =>
      let r := cb.callAsync now funcOutcome
      (r.1, some r.2)
  | none =>
      match funcOutcome with
      | .ok a => (.ok a, none)
      | .error e => (.funcFailed e, none)

/-- Equality of modelled raise-or-return results is decidable. -/
instance exceptDecEq {ε α : Type} [DecidableEq ε] [DecidableEq α] :
    DecidableEq (Except ε α) := fun a b =>
  match a, b with
  | .ok x, .ok y =>
      if h : x = y then .isTrue (by rw [h])
      else .isFalse (fun hc => by cases hc; exact h rfl)
  | .error x, .error y =>
      if h : x = y then .isTrue (by rw [h])
      else .isFalse (fun hc => by cases hc; exact h rfl)
  | .ok _, .error _ => .isFalse (fun hc => by cases hc)
  | .error _, .ok _ => .isFalse (fun hc => by cases hc)

/-- Everything observable about one run of `_retry_with_backoff`:
the number of loop iterations (`attempts`), the number of times the
wrapped function was actually invoked (`funcCalls`, a breaker-open
rejection raises before invoking it), the backoff sleeps performed in
order, each attempt's result in order, the final result, and the breaker
state left behind. -/
structure RetryResult (A : Type) where
  attempts : ℕ
  funcCalls : ℕ
  sleeps : List ℚ
  attemptResults : List (CallResult A)
  outcome : Except RetryError A
  breaker : Option CircuitBreaker
deriving DecidableEq, Repr

/-- The loop of `_retry_with_backoff`.  `attempt` is the 0-indexed loop
counter, `remaining` the attempts left, `funcCalls` the wrapped-function
invocations so far; `outcomes i` is what the wrapped function does on its
`i`-th actual invocation.  A failed attempt with attempts remaining sleeps
`retry_backoff * 2 ** attempt` before the next one (modelled by recording
the sleep and advancing the clock). -/
def retryAux (baseBackoff : ℚ) (outcomes : ℕ → Except ℕ A) :
    ℕ → ℕ → ℕ → ℚ → Option CircuitBreaker → Option RetryError →
    List ℚ → List (CallResult A) → RetryResult A
  | attempt, 0, funcCalls, _, cbOpt, lastErr, sleeps, trace =>
      ⟨attempt, funcCalls, sleeps, trace, .error (lastErr.getD .noneError), cbOpt⟩
  | attempt, r + 1, funcCalls, now, cbOpt, _, sleeps, trace =>
      let step := attemptOnce cbOpt now (outcomes funcCalls)
      match step.1 with
      | .ok a => ⟨attempt + 1, funcCalls + 1, sleeps, trace ++ [step.1], .ok a, step.2⟩
      | .funcFailed e =>
          if r = 0 then
            ⟨attempt + 1, funcCalls + 1, sleeps, trace ++ [step.1],
              .error (.funcError e), step.2⟩
          else
            let backoff := baseBackoff * 2 ^ attempt
            retryAux baseBackoff outcomes (attempt + 1) r (funcCalls + 1)
              (now + backoff) step.2 (some (.funcError e))
              (sleeps ++ [backoff]) (trace ++ [step.1])
      | .breakerOpenRejected =>
          if r = 0 then
            ⟨attempt + 1, funcCalls, sleeps, trace ++ [step.1],
              .error .breakerOpen, step.2⟩
          else
            let backoff := baseBackoff * 2 ^ attempt
            retryAux baseBackoff outcomes (attempt + 1) r funcCalls
              (now + backoff) step.2 (some .breakerOpen)
              (sleeps ++ [backoff]) (trace ++ [step.1])

/-- `_retry_with_backoff(func)` started at wall-clock instant `start`. -/
def retryWithBackoff (maxRetries : ℕ) (baseBackoff : ℚ)
    (cbOpt : Option CircuitBreaker) (outcomes : ℕ → Except ℕ A)
    (start : ℚ) : RetryResult A :=
  retryAux baseBackoff outcomes 0 maxRetries 0 start cbOpt none [] []

/-! ## Transport client buffering (`MonitorXClient`) -/

/-- The `"type"` tag of a buffered entry: `"inference"` or `"drift"`. -/
inductive MetricKind where
  | inference
  | drift
deriving DecidableEq, Repr

/-- One entry of `metric_buffer`; the metric's serialized data is
abstracted to a `ℕ` payload identifier. -/
structure BufferedItem where
  kind : MetricKind
  payload : ℕ
deriving DecidableEq, Repr

/-- The client fields relevant to buffering and resilience. -/
structure MonitorXClient where
  maxRetries : ℕ
  retryBackoff : ℚ
  bufferSize : ℕ
  circuitBreaker : Option CircuitBreaker
  metricBuffer : List BufferedItem
  bufferEnabled : Bool
deriving DecidableEq, Repr

/-- `deque(maxlen=maxlen).append`: append on the right, evicting from the
left once the length exceeds `maxlen` (head of the list = oldest item). -/
def pushBounded (maxlen : ℕ) (buf : List α) (x : α) : List α :=
  let b := buf ++ [x]
  b.drop (b.length - maxlen)

/-- What a metric-sending entry point returns and does: the boolean handed
back to the caller, the number of network-request invocations
(`_collect_*_metric_request` calls, each of which performs I/O), the
backoff sleeps performed, and the client state afterwards. -/
structure SendOutcome where
  ok : Bool
  networkAttempts : ℕ
  sleeps : List ℚ
  client : MonitorXClient
deriving DecidableEq, Repr

/-- `_collect_inference_metric_request` / `_collect_drift_metric_request`
wrap their whole body in `try/except Exception` and return a boolean, so
within the model a network attempt never raises: `net i` is the boolean
the `i`-th request invocation of a retry sequence returns
(`False` = the HTTP call failed and was swallowed). -/
def requestOutcomes (net : ℕ → Bool) : ℕ → Except ℕ Bool :=
  fun i => .ok (net i)

/-- `_collect_inference_metric_request_with_retry` /
`_collect_drift_metric_request_with_retry`: run the request through
`_retry_with_backoff`; if that raises, log, enqueue the payload when
`buffer_enabled`, and return `False`. -/
def collectMetricRequestWithRetry (c : MonitorXClient) (kind : MetricKind)
    (payload : ℕ) (net : ℕ → Bool) (now : ℚ) : SendOutcome :=
  let r := retryWithBackoff c.maxRetries c.retryBackoff c.circuitBreaker
    (requestOutcomes net) now
  let c' := { c with circuitBreaker := r.breaker }
  match r.outcome with
  | .ok b => ⟨b, r.funcCalls, r.sleeps, c'⟩
  | .error _ =>
      if c.bufferEnabled then
        ⟨false, r.funcCalls, r.sleeps,
          { c' with metricBuffer := pushBounded c.bufferSize c'.metricBuffer ⟨kind, payload⟩ }⟩
      else
        ⟨false, r.funcCalls, r.sleeps, c'⟩

/-- `MonitorXClient.collect_inference_metric`: when `buffer_enabled`,
append to the buffer and return `True` without any network call;
otherwise go through the retry helper. -/
def collectInferenceMetric (c : MonitorXClient) (payload : ℕ)
    (net : ℕ → Bool) (now : ℚ) : SendOutcome :=
  if c.bufferEnabled then
    ⟨true, 0, [],
      { c with metricBuffer := pushBounded c.bufferSize c.metricBuffer ⟨.inference, payload⟩ }⟩
  else
    collectMetricRequestWithRetry c .inference payload net now

/-- `MonitorXClient.collect_drift_metric`: goes straight to the retry
helper — the source never consults `buffer_enabled` before attempting
network I/O for drift metrics. -/
def collectDriftMetric (c : MonitorXClient) (payload : ℕ)
    (net : ℕ → Bool) (now : ℚ) : SendOutcome :=
  collectMetricRequestWithRetry c .drift payload net now

/-- The `{"success": …, "failed": …}` dictionary of the batch entry point,
plus the observables shared with `SendOutcome`. -/
structure BatchOutcome where
  success : ℕ
  failed : ℕ
  networkAttempts : ℕ
  client : MonitorXClient
deriving DecidableEq, Repr

/-- `MonitorXClient.collect_inference_metrics_batch`: empty input returns
zero counts; with `buffer_enabled` every metric is appended to the buffer
and the whole batch is reported successful with no network call; otherwise
each metric goes through the retry helper (the source gathers these
concurrently; the model runs them in list order, which fixes one
interleaving of the shared breaker state). -/
def collectInferenceMetricsBatch (c : MonitorXClient) (payloads : List ℕ)
    (net : ℕ → Bool) (now : ℚ) : BatchOutcome :=
  if payloads = [] then ⟨0, 0, 0, c⟩
  else if c.bufferEnabled then
    ⟨payloads.length, 0, 0,
      { c with metricBuffer :=
          (payloads.foldl (fun b p => pushBounded c.bufferSize b ⟨.inference, p⟩)
            c.metricBuffer) }⟩
  else
    payloads.foldl (fun acc p =>
      let r := collectMetricRequestWithRetry acc.client .inference p
        (fun i => net (acc.networkAttempts + i)) now
      ⟨acc.success + (if r.ok then 1 else 0),
       acc.failed + (if r.ok then 0 else 1),
       acc.networkAttempts + r.networkAttempts, r.client⟩)
      (⟨0, 0, 0, c⟩ : BatchOutcome)

/-- What processing one buffered item during a flush does: the direct
request call returned a boolean, or reconstructing/sending the item raised
(caught by the per-item `except`, counted as failed). -/
inductive FlushStep where
  | returned (b : Bool)
  | raised
deriving DecidableEq, Repr

/-- The `{"flushed": …, "failed": …}` dictionary of `flush_buffer`, with a
ghost `delivered` count of items whose direct request actually reported
success, and the client state afterwards. -/
structure FlushOutcome where
  flushed : ℕ
  failed : ℕ
  delivered : ℕ
  client : MonitorXClient
deriving DecidableEq, Repr

/-- `MonitorXClient.flush_buffer`: an empty buffer returns zero counts at
once; otherwise buffering is disabled, items are popped from the left
(FIFO) and each is sent with a *direct* `_collect_*_metric_request` call —
not the retry/breaker helper — whose swallowed boolean is ignored
(`flushed` counts every item whose call returned, `failed` those whose
processing raised), and the original `buffer_enabled` flag is restored in
the `finally` block.  `deliver i item` is the behaviour of the request for
the `i`-th popped item. -/
def flushBuffer (c : MonitorXClient)
    (deliver : ℕ → BufferedItem → FlushStep) : FlushOutcome :=
  if c.metricBuffer = [] then ⟨0, 0, 0, c⟩
  else
    let counts := (c.metricBuffer.enum.foldl
      (fun (acc : ℕ × ℕ × ℕ) it =>
        match deliver it.1 it.2 with
        | .returned b => (acc.1 + 1, acc.2.1, acc.2.2 + (if b then 1 else 0))
        | .raised => (acc.1, acc.2.1 + 1, acc.2.2)) (0, 0, 0))
    ⟨counts.1, counts.2.1, counts.2.2, { c with metricBuffer := [] }⟩

/-! ## Notification dispatcher (`AlertingService`) -/

/-- The fields of an `Alert` that the dispatcher's dedup key reads. -/
structure AlertMsg where
  modelId : String
  alertType : String
  severity : Severity
deriving DecidableEq, Repr

/-- `f"{alert.model_id}:{alert.alert_type}:{alert.severity}"`. -/
def rateLimitKey (a : AlertMsg) : String :=
  a.modelId ++ ":" ++ a.alertType ++ ":" ++ a.severity.str

/-- `self.alert_history` (a dict keyed by the dedup string) modelled as an
association list, and the cool-down `rate_limit_window` (source default:
5 minutes). -/
structure AlertingService where
  rateLimitWindow : ℚ
  history : List (String × ℚ)
deriving DecidableEq, Repr

/-- `self.alert_history.get(key)`. -/
def historyGet (h : List (String × ℚ)) (k : String) : Option ℚ :=
  match h with
  | [] => none
  | (k', v) :: rest => if k' = k then some v else historyGet rest k

/-- `self.alert_history[key] = now`. -/
def historySet (h : List (String × ℚ)) (k : String) (v : ℚ) : List (String × ℚ) :=
  match h with
  | [] => [(k, v)]
  | (k', v') :: rest =>
      if k' = k then (k, v) :: rest else (k', v') :: historySet rest k v

/-- What one channel adapter or one custom handler does when invoked:
return normally or raise (the raise is caught and logged by
`_send_through_channel` / the per-handler `except` in `send_alert`). -/
inductive HandlerOutcome where
  | delivered
  | raised
deriving DecidableEq, Repr

/-- One configured channel: its `enabled` flag and what its delivery
attempt would do. -/
structure Channel where
  enabled : Bool
  outcome : HandlerOutcome
deriving DecidableEq, Repr

/-- The observables of one `send_alert` call: whether the alert was
dispatched (not rate-limit-suppressed), how many channel delivery attempts
were made (`_send_through_channel` invocations — only enabled channels),
how many custom handlers were invoked, how many individual failures were
logged, and the service state afterwards.  `send_alert` itself never
raises. -/
structure DispatchOutcome where
  dispatched : Bool
  channelsAttempted : ℕ
  handlersInvoked : ℕ
  errorsLogged : ℕ
  svc : AlertingService
deriving DecidableEq, Repr

/-- `AlertingService.send_alert` at instant `now`: if the dedup key was
last sent within `rate_limit_window`, return at once (nothing invoked,
state unchanged); otherwise stamp the history, attempt delivery on every
enabled channel, invoke every custom handler, and log (never raise) each
individual failure. -/
def sendAlert (svc : AlertingService) (a : AlertMsg) (now : ℚ)
    (channels : List Channel) (handlers : List HandlerOutcome) : DispatchOutcome :=
  let key := rateLimitKey a
  let suppressed : Bool :=
    match historyGet svc.history key with
    | some last => decide (now - last < svc.rateLimitWindow)
    | none => false
  if suppressed then ⟨false, 0, 0, 0, svc⟩
  else
    let enabled := channels.filter (·.enabled)
    ⟨true,
     enabled.length,
     handlers.length,
     (enabled.filter (·.outcome = .raised)).length
       + (handlers.filter (· = .raised)).length,
     { svc with history := historySet svc.history key now }⟩

/-! ## Sliding-window rate limiter (`RateLimiter`, middleware/rate_limit.py) -/

/-- One client identity's slice of `self.requests`: a list of
`(timestamp, count)` pairs, plus the limiter configuration.  (The periodic
`_cleanup_old_entries` pass only removes entries whose timestamps already
lie outside every current and future window, so it cannot change any
admission decision and is not modelled.) -/
structure RateLimiter where
  requestsPerWindow : ℕ
  windowSeconds : ℚ
  requests : List (ℚ × ℕ)
deriving DecidableEq, Repr

/-- Python `int(q)`: truncation toward zero. -/
def pyInt (q : ℚ) : ℤ :=
  if 0 ≤ q then ⌊q⌋ else -⌊-q⌋

/-- The `rate_limit_info` dictionary `{limit, remaining, reset}`. -/
structure RateInfo where
  limit : ℕ
  remaining : ℕ
  reset : ℤ
deriving DecidableEq, Repr

/-- `RateLimiter.is_allowed` at instant `now`: sum the counts of entries
with `timestamp > now - window_seconds`; build the info dictionary
(`remaining = max(0, limit - total)` is ℕ-truncated subtraction;
`reset = int(window_start + window_seconds)`); reject when
`total >= limit`, otherwise record `(now, 1)` and prune entries outside
the window. -/
def isAllowed (rl : RateLimiter) (now : ℚ) :
    Bool × RateInfo × RateLimiter :=
  let windowStart := now - rl.windowSeconds
  let current := rl.requests.filter (fun e => windowStart < e.1)
  let total := (current.map (·.2)).sum
  let info : RateInfo :=
    ⟨rl.requestsPerWindow, rl.requestsPerWindow - total,
     pyInt (windowStart + rl.windowSeconds)⟩
  if rl.requestsPerWindow ≤ total then
    (false, info, rl)
  else
    (true, info,
     { rl with requests :=
        (rl.requests ++ [(now, 1)]).filter (fun e => windowStart < e.1) })

/-- `RateLimitMiddleware.dispatch` on a rejected request: the computed
`retry_after = info["reset"] - int(time.time())`, evaluated at the (later)
instant `tNow`. -/
def retryAfter (info : RateInfo) (tNow : ℚ) : ℤ :=
  info.reset - pyInt tNow

/-! ## Helper lemmas -/

/-- Severity as a function of the ratio alone. -/
def sevOfRatio (r : ℚ) : Severity :=
  if 2 ≤ r then .critical
  else if 3/2 ≤ r then .high
  else if 6/5 ≤ r then .medium
  else .low

theorem calculateSeverity_eq_sevOfRatio (v T : ℚ) :
    calculateSeverity v T = sevOfRatio (v / T) := rfl

theorem sevOfRatio_rank_mono {r r' : ℚ} (h : r ≤ r') :
    (sevOfRatio r).rank ≤ (sevOfRatio r').rank := by
  unfold sevOfRatio
  split_ifs <;> simp [Severity.rank] <;> linarith

theorem sevOfRatio_spec (r : ℚ) :
    (sevOfRatio r = .critical ↔ 2 ≤ r) ∧
    (sevOfRatio r = .high ↔ 3/2 ≤ r ∧ r < 2) ∧
    (sevOfRatio r = .medium ↔ 6/5 ≤ r ∧ r < 3/2) ∧
    (sevOfRatio r = .low ↔ r < 6/5) := by
  unfold sevOfRatio
  split_ifs with h1 h2 h3 <;>
    refine ⟨?_, ?_, ?_, ?_⟩ <;>
    constructor <;>
    intro hx <;>
    first
      | rfl
      | linarith
      | (exact ⟨by linarith, by linarith⟩)
      | (exact absurd hx (by decide))

/-! ## C1: severity classification -/

/-- C1. For positive threshold `T` and observed value `v > T`,
`_calculate_severity` is a pure function of the ratio `v/T`: it returns
`critical` iff `v/T ≥ 2.0`, `high` iff `1.5 ≤ v/T < 2.0`, `medium` iff
`1.2 ≤ v/T < 1.5`, `low` otherwise, and as a function of the ratio the
returned severity is monotonically non-decreasing in the order
low < medium < high < critical. -/
theorem claim_C1_severity (v T : ℚ) (_hT : 0 < T) (_hv : T < v) :
    (calculateSeverity v T = .critical ↔ 2 ≤ v / T) ∧
    (calculateSeverity v T = .high ↔ 3/2 ≤ v / T ∧ v / T < 2) ∧
    (calculateSeverity v T = .medium ↔ 6/5 ≤ v / T ∧ v / T < 3/2) ∧
    (calculateSeverity v T = .low ↔ v / T < 6/5) ∧
    (∀ v' T' : ℚ, 0 < T' → v / T ≤ v' / T' →
      (calculateSeverity v T).rank ≤ (calculateSeverity v' T').rank) := by
  rw [calculateSeverity_eq_sevOfRatio]
  obtain ⟨s1, s2, s3, s4⟩ := sevOfRatio_spec (v / T)
  refine ⟨s1, s2, s3, s4, ?_⟩
  intro v' T' _ hle
  exact sevOfRatio_rank_mono hle

/-- Witness for C1 at `v = 2500`, `T = 1000` (ratio `2.5`). -/
theorem claim_C1_severity_witness :
    0 < (1000 : ℚ) ∧ (1000 : ℚ) < 2500 ∧
    calculateSeverity 2500 1000 = .critical :=
  ⟨by norm_num, by norm_num,
    (claim_C1_severity 2500 1000 (by norm_num) (by norm_num)).1.mpr (by norm_num)⟩

/-! ## Circuit breaker step lemmas -/

theorem callAsync_notOpen {cb : CircuitBreaker} (h : cb.state ≠ .opened)
    (now : ℚ) (o : Except ℕ A) : cb.callAsync now o = cb.proceed now o := by
  unfold CircuitBreaker.callAsync
  rw [if_neg h]

theorem callAsync_open_rejected {cb : CircuitBreaker} {now : ℚ}
    (h : cb.state = .opened)
    (h2 : now - cb.lastFailureTime.getD 0 < cb.recoveryTimeout)
    (o : Except ℕ A) : cb.callAsync now o = (.breakerOpenRejected, cb) := by
  unfold CircuitBreaker.callAsync
  rw [if_pos h, if_neg (not_le.mpr h2)]

theorem callAsync_open_elapsed {cb : CircuitBreaker} {now : ℚ}
    (h : cb.state = .opened)
    (h2 : cb.recoveryTimeout ≤ now - cb.lastFailureTime.getD 0)
    (o : Except ℕ A) :
    cb.callAsync now o = CircuitBreaker.proceed { cb with state := .halfOpen } now o := by
  unfold CircuitBreaker.callAsync
  rw [if_pos h, if_pos h2]

theorem proceed_ok {cb : CircuitBreaker} (now : ℚ) (a : A) :
    cb.proceed now (.ok a) = (.ok a, if cb.state = .halfOpen then cb.reset else cb) := rfl

theorem proceed_err {cb : CircuitBreaker} (now : ℚ) (e : ℕ) :
    cb.proceed now (.error e : Except ℕ A) = (.funcFailed e, cb.recordFailure now) := rfl

theorem recordFailure_opens {cb : CircuitBreaker} {now : ℚ}
    (h : cb.failureThreshold ≤ cb.failureCount + 1) :
    cb.recordFailure now =
      ⟨cb.failureThreshold, cb.recoveryTimeout, cb.failureCount + 1, some now, .opened⟩ := by
  unfold CircuitBreaker.recordFailure
  rw [if_pos h]

theorem recordFailure_stays {cb : CircuitBreaker} {now : ℚ}
    (h : ¬ cb.failureThreshold ≤ cb.failureCount + 1) :
    cb.recordFailure now =
      ⟨cb.failureThreshold, cb.recoveryTimeout, cb.failureCount + 1, some now, cb.state⟩ := by
  unfold CircuitBreaker.recordFailure
  rw [if_neg h]

theorem runCalls_nil (cb : CircuitBreaker) : cb.runCalls [] = cb := rfl

theorem runCalls_cons (cb : CircuitBreaker) (t : ℚ) (o : Except ℕ Unit)
    (evs : List (ℚ × Except ℕ Unit)) :
    cb.runCalls ((t, o) :: evs) = ((cb.callAsync t o).2).runCalls evs := rfl

/-! ## C2: circuit breaker state machine -/

/-- C2 counterexample.  With `failure_threshold = 2`, the call sequence
failure, success, failure opens the breaker although its longest run of
consecutive failures has length `1 < 2`: a success in the closed state
does not reset `failure_count`, so the breaker does **not** open "exactly
at the Nth consecutive failure". -/
theorem claim_C2_breaker_counterexample :
    ((⟨2, 60, 0, none, .closed⟩ : CircuitBreaker).runCalls
        [(0, .error 0), (1, .ok ()), (2, .error 1)]).state = .opened ∧
    maxConsecFailures [true, false, true] = 1 ∧
    maxConsecFailures [true, false, true] <
      (⟨2, 60, 0, none, .closed⟩ : CircuitBreaker).failureThreshold := by
  have h1 : ((⟨2, 60, 0, none, .closed⟩ : CircuitBreaker).callAsync 0
      (.error 0 : Except ℕ Unit)).2 = ⟨2, 60, 1, some 0, .closed⟩ := by
    rw [callAsync_notOpen (by decide), proceed_err, recordFailure_stays (by decide)]
  have h2 : ((⟨2, 60, 1, some 0, .closed⟩ : CircuitBreaker).callAsync 1
      (.ok () : Except ℕ Unit)).2 = ⟨2, 60, 1, some 0, .closed⟩ := by
    rw [callAsync_notOpen (by decide), proceed_ok, if_neg (by decide)]
  have h3 : ((⟨2, 60, 1, some 0, .closed⟩ : CircuitBreaker).callAsync 2
      (.error 1 : Except ℕ Unit)).2 = ⟨2, 60, 2, some 2, .opened⟩ := by
    rw [callAsync_notOpen (by decide), proceed_err, recordFailure_opens (by decide)]
  refine ⟨?_, by norm_num [maxConsecFailures], by norm_num [maxConsecFailures]⟩
  rw [runCalls_cons, h1, runCalls_cons, h2, runCalls_cons, h3, runCalls_nil]

/-- C2 (amended).  The breaker transitions from closed (or half-open) to
open exactly when a recorded failure brings `failure_count` — failures
since construction or the last reset, **not necessarily consecutive**,
since a success while closed leaves the count unchanged — to at least
`failure_threshold`; while open with the recovery timeout not yet elapsed
every call is rejected with the distinct breaker-open condition and the
breaker (in particular `failure_count`) is unchanged; an open breaker
lets a call proceed (via half-open) iff at least `recovery_timeout`
elapsed since `last_failure_time`; and a single successful call in
half-open resets `failure_count` to 0 and the state to closed. -/
theorem claim_C2_breaker :
    (∀ (cb : CircuitBreaker) (now : ℚ) (e : ℕ), cb.state ≠ .opened →
      ((cb.callAsync now (.error e : Except ℕ Unit)).2.state = .opened ↔
        cb.failureThreshold ≤ cb.failureCount + 1)) ∧
    (∀ (cb : CircuitBreaker) (now : ℚ), cb.state = .closed →
      (cb.callAsync now (.ok () : Except ℕ Unit)).2 = cb) ∧
    (∀ (cb : CircuitBreaker) (now : ℚ) (o : Except ℕ Unit), cb.state = .opened →
      now - cb.lastFailureTime.getD 0 < cb.recoveryTimeout →
      cb.callAsync now o = (.breakerOpenRejected, cb)) ∧
    (∀ (cb : CircuitBreaker) (now : ℚ) (o : Except ℕ Unit), cb.state = .opened →
      ((cb.callAsync now o).1 = .breakerOpenRejected ↔
        now - cb.lastFailureTime.getD 0 < cb.recoveryTimeout)) ∧
    (∀ (cb : CircuitBreaker) (now : ℚ), cb.state = .halfOpen →
      (cb.callAsync now (.ok () : Except ℕ Unit)).2 =
        { cb with failureCount := 0, lastFailureTime := none, state := .closed }) := by
  refine ⟨?_, ?_, ?_, ?_, ?_⟩
  · intro cb now e h
    rw [callAsync_notOpen h, proceed_err]
    by_cases hth : cb.failureThreshold ≤ cb.failureCount + 1
    · rw [recordFailure_opens hth]
      simpa using hth
    · rw [recordFailure_stays hth]
      simp only []
      constructor
      · intro hs; exact absurd hs h
      · intro hs; exact absurd hs hth
  · intro cb now h
    rw [callAsync_notOpen (by rw [h]; decide), proceed_ok]
    simp [h]
  · intro cb now o h h2
    exact callAsync_open_rejected h h2 o
  · intro cb now o h
    constructor
    · intro hres
      by_contra hlt
      rw [callAsync_open_elapsed h (le_of_not_lt (fun hc => hlt hc)) o] at hres
      cases o with
      | ok a => rw [proceed_ok] at hres; exact absurd hres (by simp)
      | error e => rw [proceed_err] at hres; exact absurd hres (by simp)
    · intro h2
      rw [callAsync_open_rejected h h2 o]
  · intro cb now h
    rw [callAsync_notOpen (by rw [h]; decide), proceed_ok]
    simp only [if_pos h]
    rfl

/-- Witness for C2 (amended): a breaker with threshold 2 and one prior
failure opens on the next failure; an open breaker 30s after the last
failure (timeout 60s) rejects the call unchanged; a half-open breaker
resets fully on one success. -/
theorem claim_C2_breaker_witness :
    (((⟨2, 60, 1, some 0, .closed⟩ : CircuitBreaker).callAsync 5
        (.error 0 : Except ℕ Unit)).2.state = .opened ↔ 2 ≤ 1 + 1) ∧
    ((⟨2, 60, 2, some 0, .opened⟩ : CircuitBreaker).callAsync 30
        (.ok () : Except ℕ Unit) =
      (.breakerOpenRejected, ⟨2, 60, 2, some 0, .opened⟩)) ∧
    (((⟨2, 60, 1, some 0, .halfOpen⟩ : CircuitBreaker).callAsync 70
        (.ok () : Except ℕ Unit)).2 = ⟨2, 60, 0, none, .closed⟩) := by
  refine ⟨claim_C2_breaker.1 _ 5 0 (by decide), ?_, ?_⟩
  · exact claim_C2_breaker.2.2.1 _ 30 _ rfl (by norm_num)
  · exact claim_C2_breaker.2.2.2.2 (⟨2, 60, 1, some 0, .halfOpen⟩ : CircuitBreaker) 70 rfl

/-! ## Retry-driver step lemmas -/

theorem attemptOnce_some (cb : CircuitBreaker) (now : ℚ) (o : Except ℕ A) :
    attemptOnce (some cb) now o =
      ((cb.callAsync now o).1, some (cb.callAsync now o).2) := rfl

theorem attemptOnce_none_ok (now : ℚ) (a : A) :
    attemptOnce none now (.ok a) = (.ok a, none) := rfl

theorem attemptOnce_none_err (now : ℚ) (e : ℕ) :
    attemptOnce none now (.error e : Except ℕ A) = (.funcFailed e, none) := rfl

theorem retryAux_exhausted (b : ℚ) (o : ℕ → Except ℕ A) (a f : ℕ) (now : ℚ)
    (cbOpt : Option CircuitBreaker) (le : Option RetryError) (s : List ℚ)
    (t : List (CallResult A)) :
    retryAux b o a 0 f now cbOpt le s t =
      ⟨a, f, s, t, .error (le.getD .noneError), cbOpt⟩ := rfl

theorem retryAux_step_ok (o : ℕ → Except ℕ A) (f : ℕ) {now : ℚ}
    {cbOpt : Option CircuitBreaker} {x : A}
    (h : (attemptOnce cbOpt now (o f)).1 = .ok x)
    (b : ℚ) (a r : ℕ) (le : Option RetryError) (s : List ℚ)
    (t : List (CallResult A)) :
    retryAux b o a (r + 1) f now cbOpt le s t =
      ⟨a + 1, f + 1, s, t ++ [CallResult.ok x], .ok x,
        (attemptOnce cbOpt now (o f)).2⟩ := by
  simp only [retryAux, h]

theorem retryAux_last_funcFailed (o : ℕ → Except ℕ A) (f : ℕ) {now : ℚ}
    {cbOpt : Option CircuitBreaker} {e : ℕ}
    (h : (attemptOnce cbOpt now (o f)).1 = .funcFailed e)
    (b : ℚ) (a : ℕ) (le : Option RetryError) (s : List ℚ)
    (t : List (CallResult A)) :
    retryAux b o a 1 f now cbOpt le s t =
      ⟨a + 1, f + 1, s, t ++ [CallResult.funcFailed e], .error (.funcError e),
        (attemptOnce cbOpt now (o f)).2⟩ := by
  simp only [retryAux, h, if_pos]

theorem retryAux_step_funcFailed (o : ℕ → Except ℕ A) (f : ℕ) {now : ℚ}
    {cbOpt : Option CircuitBreaker} {e : ℕ}
    (h : (attemptOnce cbOpt now (o f)).1 = .funcFailed e)
    (b : ℚ) (a r : ℕ) (le : Option RetryError) (s : List ℚ)
    (t : List (CallResult A)) :
    retryAux b o a (r + 2) f now cbOpt le s t =
      retryAux b o (a + 1) (r + 1) (f + 1) (now + b * 2 ^ a)
        (attemptOnce cbOpt now (o f)).2 (some (.funcError e))
        (s ++ [b * 2 ^ a]) (t ++ [CallResult.funcFailed e]) := by
  simp only [retryAux, h]
  rw [if_neg (Nat.succ_ne_zero r)]

theorem retryAux_last_rejected (o : ℕ → Except ℕ A) (f : ℕ) {now : ℚ}
    {cbOpt : Option CircuitBreaker}
    (h : (attemptOnce cbOpt now (o f)).1 = .breakerOpenRejected)
    (b : ℚ) (a : ℕ) (le : Option RetryError) (s : List ℚ)
    (t : List (CallResult A)) :
    retryAux b o a 1 f now cbOpt le s t =
      ⟨a + 1, f, s, t ++ [CallResult.breakerOpenRejected], .error .breakerOpen,
        (attemptOnce cbOpt now (o f)).2⟩ := by
  simp only [retryAux, h, if_pos]

theorem retryAux_step_rejected (o : ℕ → Except ℕ A) (f : ℕ) {now : ℚ}
    {cbOpt : Option CircuitBreaker}
    (h : (attemptOnce cbOpt now (o f)).1 = .breakerOpenRejected)
    (b : ℚ) (a r : ℕ) (le : Option RetryError) (s : List ℚ)
    (t : List (CallResult A)) :
    retryAux b o a (r + 2) f now cbOpt le s t =
      retryAux b o (a + 1) (r + 1) f (now + b * 2 ^ a)
        (attemptOnce cbOpt now (o f)).2 (some .breakerOpen)
        (s ++ [b * 2 ^ a]) (t ++ [CallResult.breakerOpenRejected]) := by
  simp only [retryAux, h]
  rw [if_neg (Nat.succ_ne_zero r)]

/-! ## Retry-driver invariants -/

theorem retryAux_attempts_le (b : ℚ) (o : ℕ → Except ℕ A) :
    ∀ (r a f : ℕ) (now : ℚ) (cbOpt : Option CircuitBreaker)
      (le : Option RetryError) (s : List ℚ) (t : List (CallResult A)),
      (retryAux b o a r f now cbOpt le s t).attempts ≤ a + r := by
  intro r
  induction r with
  | zero =>
    intro a f now cbOpt le s t
    rw [retryAux_exhausted]
    dsimp only
    omega
  | succ r ih =>
    intro a f now cbOpt le s t
    cases hstep : (attemptOnce cbOpt now (o f)).1 with
    | ok x =>
      rw [retryAux_step_ok o f hstep]
      dsimp only
      omega
    | funcFailed e =>
      cases r with
      | zero => rw [retryAux_last_funcFailed o f hstep]
      | succ r' =>
        rw [retryAux_step_funcFailed o f hstep]
        exact le_trans (ih _ _ _ _ _ _ _) (by omega)
    | breakerOpenRejected =>
      cases r with
      | zero => rw [retryAux_last_rejected o f hstep]
      | succ r' =>
        rw [retryAux_step_rejected o f hstep]
        exact le_trans (ih _ _ _ _ _ _ _) (by omega)

theorem retryAux_funcCalls_le (b : ℚ) (o : ℕ → Except ℕ A) :
    ∀ (r a f : ℕ) (now : ℚ) (cbOpt : Option CircuitBreaker)
      (le : Option RetryError) (s : List ℚ) (t : List (CallResult A)),
      f ≤ a →
      (retryAux b o a r f now cbOpt le s t).funcCalls ≤
        (retryAux b o a r f now cbOpt le s t).attempts := by
  intro r
  induction r with
  | zero =>
    intro a f now cbOpt le s t hf
    rw [retryAux_exhausted]
    exact hf
  | succ r ih =>
    intro a f now cbOpt le s t hf
    cases hstep : (attemptOnce cbOpt now (o f)).1 with
    | ok x =>
      rw [retryAux_step_ok o f hstep]
      dsimp only
      omega
    | funcFailed e =>
      cases r with
      | zero =>
        rw [retryAux_last_funcFailed o f hstep]
        dsimp only
        omega
      | succ r' =>
        rw [retryAux_step_funcFailed o f hstep]
        exact ih _ _ _ _ _ _ _ (by omega)
    | breakerOpenRejected =>
      cases r with
      | zero =>
        rw [retryAux_last_rejected o f hstep]
        dsimp only
        omega
      | succ r' =>
        rw [retryAux_step_rejected o f hstep]
        exact ih _ _ _ _ _ _ _ (by omega)

theorem retryAux_sleeps (b : ℚ) (o : ℕ → Except ℕ A) :
    ∀ (r a f : ℕ) (now : ℚ) (cbOpt : Option CircuitBreaker)
      (le : Option RetryError) (s : List ℚ) (t : List (CallResult A)),
      (r = 0 → a = 0) →
      s = (List.range a).map (fun i => b * 2 ^ i) →
      (retryAux b o a r f now cbOpt le s t).sleeps =
        (List.range ((retryAux b o a r f now cbOpt le s t).attempts - 1)).map
          (fun i => b * 2 ^ i) := by
  intro r
  induction r with
  | zero =>
    intro a f now cbOpt le s t h0 hs
    rw [retryAux_exhausted]
    simp only [h0 rfl] at hs ⊢
    simpa using hs
  | succ r ih =>
    intro a f now cbOpt le s t _ hs
    cases hstep : (attemptOnce cbOpt now (o f)).1 with
    | ok x =>
      rw [retryAux_step_ok o f hstep]
      simpa using hs
    | funcFailed e =>
      cases r with
      | zero =>
        rw [retryAux_last_funcFailed o f hstep]
        simpa using hs
      | succ r' =>
        rw [retryAux_step_funcFailed o f hstep]
        refine ih _ _ _ _ _ _ _ (by omega) ?_
        rw [hs, List.range_succ, List.map_append]
        simp
    | breakerOpenRejected =>
      cases r with
      | zero =>
        rw [retryAux_last_rejected o f hstep]
        simpa using hs
      | succ r' =>
        rw [retryAux_step_rejected o f hstep]
        refine ih _ _ _ _ _ _ _ (by omega) ?_
        rw [hs, List.range_succ, List.map_append]
        simp

theorem retryAux_lastErr (b : ℚ) (o : ℕ → Except ℕ A) :
    ∀ (r a f : ℕ) (now : ℚ) (cbOpt : Option CircuitBreaker)
      (le : Option RetryError) (s : List ℚ) (t : List (CallResult A)),
      (r = 0 → t ≠ []) →
      le = t.getLast?.bind callErr →
      (t = [] ∨ ∃ er, le = some er) →
      ∀ err, (retryAux b o a r f now cbOpt le s t).outcome = .error err →
        (retryAux b o a r f now cbOpt le s t).attemptResults.getLast?.bind callErr
          = some err := by
  intro r
  induction r with
  | zero =>
    intro a f now cbOpt le s t h0 h1 h3 err hout
    rw [retryAux_exhausted] at hout ⊢
    rcases h3 with ht | ⟨er, hle⟩
    · exact absurd ht (h0 rfl)
    · simp only [hle, Option.getD_some] at hout
      cases hout
      rw [← h1, hle]
  | succ r ih =>
    intro a f now cbOpt le s t _ h1 h3 err hout
    cases hstep : (attemptOnce cbOpt now (o f)).1 with
    | ok x =>
      rw [retryAux_step_ok o f hstep] at hout
      cases hout
    | funcFailed e =>
      cases r with
      | zero =>
        rw [retryAux_last_funcFailed o f hstep] at hout ⊢
        cases hout
        simp [callErr]
      | succ r' =>
        rw [retryAux_step_funcFailed o f hstep] at hout ⊢
        refine ih _ _ _ _ _ _ _ (by simp) ?_ ?_ err hout
        · simp [callErr]
        · exact Or.inr ⟨_, rfl⟩
    | breakerOpenRejected =>
      cases r with
      | zero =>
        rw [retryAux_last_rejected o f hstep] at hout ⊢
        cases hout
        simp [callErr]
      | succ r' =>
        rw [retryAux_step_rejected o f hstep] at hout ⊢
        refine ih _ _ _ _ _ _ _ (by simp) ?_ ?_ err hout
        · simp [callErr]
        · exact Or.inr ⟨_, rfl⟩

/-- A retry sequence against a breaker that is open on entry, with the
recovery timeout far enough away that it never elapses during the
sequence: every attempt is rejected, the wrapped function is never
invoked, the full exponential backoff is slept between attempts, and the
breaker is left unchanged. -/
theorem retryAux_openAll (b : ℚ) (o : ℕ → Except ℕ A) (hb : 0 ≤ b) :
    ∀ (r a f : ℕ) (now : ℚ) (cb : CircuitBreaker)
      (le : Option RetryError) (s : List ℚ) (t : List (CallResult A)),
      1 ≤ r →
      cb.state = .opened →
      now - cb.lastFailureTime.getD 0 + b * (2 ^ (a + r - 1) - 2 ^ a) <
        cb.recoveryTimeout →
      retryAux b o a r f now (some cb) le s t =
        ⟨a + r, f, s ++ ((List.range' a (r - 1)).map fun i => b * 2 ^ i),
         t ++ List.replicate r CallResult.breakerOpenRejected,
         .error .breakerOpen, some cb⟩ := by
  intro r
  induction r with
  | zero =>
    intro a f now cb le s t h1
    exact absurd h1 (by omega)
  | succ r ih =>
    intro a f now cb le s t _ hopen hwin
    have hpowle : (2 : ℚ) ^ a ≤ 2 ^ (a + (r + 1) - 1) := by
      apply pow_le_pow_right₀ (by norm_num)
      omega
    have hlt : now - cb.lastFailureTime.getD 0 < cb.recoveryTimeout := by
      have hnn : 0 ≤ b * (2 ^ (a + (r + 1) - 1) - 2 ^ a) :=
        mul_nonneg hb (sub_nonneg.mpr hpowle)
      linarith
    have hcall : cb.callAsync now (o f) = (.breakerOpenRejected, cb) :=
      callAsync_open_rejected hopen hlt (o f)
    have hrej : (attemptOnce (some cb) now (o f)).1 = .breakerOpenRejected := by
      rw [attemptOnce_some, hcall]
    have hafter : (attemptOnce (some cb) now (o f)).2 = some cb := by
      rw [attemptOnce_some, hcall]
    cases r with
    | zero =>
      rw [retryAux_last_rejected o f hrej, hafter]
      simp
    | succ r' =>
      rw [retryAux_step_rejected o f hrej, hafter]
      have hwin' : (now + b * 2 ^ a) - cb.lastFailureTime.getD 0 +
          b * (2 ^ ((a + 1) + (r' + 1) - 1) - 2 ^ (a + 1)) <
          cb.recoveryTimeout := by
        have he1 : (a + 1) + (r' + 1) - 1 = a + (r' + 1 + 1) - 1 := by omega
        have he2 : a + (r' + 1 + 1) - 1 = a + r' + 1 := by omega
        have hps : (2 : ℚ) ^ (a + 1) = 2 * 2 ^ a := by
          rw [pow_succ]; ring
        rw [he1, he2, hps]
        rw [he2] at hwin
        linarith
      have := ih (a + 1) f (now + b * 2 ^ a) cb (some .breakerOpen)
        (s ++ [b * 2 ^ a]) (t ++ [CallResult.breakerOpenRejected])
        (by omega) hopen hwin'
      rw [this]
      have hr1 : (a + 1) + (r' + 1) = a + (r' + 1 + 1) := by omega
      have hr2 : (r' + 1 + 1) - 1 = r' + 1 := by omega
      have hr3 : (r' + 1) - 1 = r' := by omega
      rw [hr1, hr2, hr3]
      have hrange : List.range' a (r' + 1) = a :: List.range' (a + 1) r' := by
        rw [List.range'_succ]
      rw [hrange]
      simp [List.replicate_succ, List.append_assoc]

/-! ## C3: breaker-open does not abort the retry sequence -/

/-- C3 counterexample.  With `failure_threshold = 5`, four prior failures,
`max_retries = 3` and `base_backoff = 1`: the first attempt's failure
opens the breaker mid-sequence, the second attempt is rejected
breaker-open — and the driver then **sleeps the 2-second backoff anyway**
and makes a third attempt, rather than aborting: the run performs sleeps
`[1, 2]` and all three attempts. -/
theorem claim_C3_retry_abort_counterexample :
    retryWithBackoff 3 1 (some ⟨5, 60, 4, some 0, .closed⟩)
        (fun _ => (Except.error 9 : Except ℕ Unit)) 0 =
      ⟨3, 1, [1, 2],
       [.funcFailed 9, .breakerOpenRejected, .breakerOpenRejected],
       .error .breakerOpen, some ⟨5, 60, 5, some 0, .opened⟩⟩ ∧
    (retryWithBackoff 3 1 (some ⟨5, 60, 4, some 0, .closed⟩)
        (fun _ => (Except.error 9 : Except ℕ Unit)) 0).sleeps ≠ [] := by
  have hcall0 : (⟨5, 60, 4, some 0, .closed⟩ : CircuitBreaker).callAsync 0
      (Except.error 9 : Except ℕ Unit) =
      (.funcFailed 9, ⟨5, 60, 5, some 0, .opened⟩) := by
    rw [callAsync_notOpen (by decide), proceed_err, recordFailure_opens (by decide)]
  have h0 : (attemptOnce (some ⟨5, 60, 4, some 0, .closed⟩) 0
      ((fun _ => (Except.error 9 : Except ℕ Unit)) 0)).1 = .funcFailed 9 := by
    rw [attemptOnce_some, hcall0]
  have ha0 : (attemptOnce (some ⟨5, 60, 4, some 0, .closed⟩) 0
      ((fun _ => (Except.error 9 : Except ℕ Unit)) 0)).2 =
      some ⟨5, 60, 5, some 0, .opened⟩ := by
    rw [attemptOnce_some, hcall0]
  have hrun : retryWithBackoff 3 1 (some ⟨5, 60, 4, some 0, .closed⟩)
      (fun _ => (Except.error 9 : Except ℕ Unit)) 0 =
      ⟨3, 1, [1, 2],
       [.funcFailed 9, .breakerOpenRejected, .breakerOpenRejected],
       .error .breakerOpen, some ⟨5, 60, 5, some 0, .opened⟩⟩ := by
    unfold retryWithBackoff
    rw [retryAux_step_funcFailed (fun _ => (Except.error 9 : Except ℕ Unit)) 0 h0, ha0]
    have hrest := retryAux_openAll 1
      (fun _ => (Except.error 9 : Except ℕ Unit)) (by norm_num) 2 1 1
      (0 + 1 * 2 ^ 0) (⟨5, 60, 5, some 0, .opened⟩ : CircuitBreaker)
      (some (.funcError 9)) ([] ++ [1 * 2 ^ 0]) ([] ++ [.funcFailed 9])
      (by norm_num) rfl (by norm_num)
    rw [hrest]
    norm_num [List.range', List.replicate]
  refine ⟨hrun, ?_⟩
  rw [hrun]
  simp

/-- C3 (amended).  A breaker that is open during a retry sequence does
**not** abort the remaining retries: as long as the recovery timeout does
not elapse during the sequence, every attempt is rejected with the
breaker-open error, yet the driver still sleeps the full exponential
backoff schedule between attempts, performs all `max_retries` attempts
(never invoking the wrapped operation), and only then surfaces the
breaker-open failure; the breaker itself is unchanged. -/
theorem claim_C3_retry_no_abort (m : ℕ) (b start : ℚ) (cb : CircuitBreaker)
    (o : ℕ → Except ℕ Bool)
    (hm : 1 ≤ m) (hb : 0 ≤ b) (hopen : cb.state = .opened)
    (hwin : start - cb.lastFailureTime.getD 0 + b * (2 ^ (m - 1) - 1) <
      cb.recoveryTimeout) :
    retryWithBackoff m b (some cb) o start =
      ⟨m, 0, (List.range (m - 1)).map (fun i => b * 2 ^ i),
       List.replicate m CallResult.breakerOpenRejected,
       .error .breakerOpen, some cb⟩ := by
  have h := retryAux_openAll b o hb m 0 0 start cb none [] [] hm hopen
    (by simpa using hwin)
  unfold retryWithBackoff
  rw [h]
  simp [List.range_eq_range']

/-- Witness for C3 (amended): an already-open breaker (5 failures at time
0, 60-second recovery) with 3 retries and backoff 1 starting at time 0. -/
theorem claim_C3_retry_no_abort_witness :
    (1 ≤ 3 ∧ (0:ℚ) ≤ 1 ∧
      (⟨5, 60, 5, some 0, .opened⟩ : CircuitBreaker).state = .opened) ∧
    retryWithBackoff 3 1 (some ⟨5, 60, 5, some 0, .opened⟩)
        (fun _ => (Except.ok true : Except ℕ Bool)) 0 =
      ⟨3, 0, (List.range 2).map (fun i => (1:ℚ) * 2 ^ i),
       List.replicate 3 CallResult.breakerOpenRejected,
       .error .breakerOpen, some ⟨5, 60, 5, some 0, .opened⟩⟩ :=
  ⟨⟨by norm_num, by norm_num, rfl⟩,
    claim_C3_retry_no_abort 3 1 0 ⟨5, 60, 5, some 0, .opened⟩ _
      (by norm_num) (by norm_num) rfl (by norm_num)⟩

/-! ## C4: retry driver attempt/backoff/last-exception contract -/

/-- C4.  The retry driver makes at most `max_retries` attempts, and at
most that many invocations of the wrapped operation; the sleeps performed
are exactly `base_backoff * 2 ^ i` for each non-final attempt `i`
(0-indexed); if the driver raises, the exception surfaced is the one from
the last attempt; and with `max_retries = 3`, `base_backoff = 1`, two
failures followed by a success the run makes exactly 3 attempts with
backoff sleeps `[1, 2]` and returns the success. -/
theorem claim_C4_retry :
    (∀ (A : Type) (m : ℕ) (b : ℚ) (cbOpt : Option CircuitBreaker)
        (o : ℕ → Except ℕ A) (st : ℚ),
      (retryWithBackoff m b cbOpt o st).attempts ≤ m ∧
      (retryWithBackoff m b cbOpt o st).funcCalls ≤
        (retryWithBackoff m b cbOpt o st).attempts ∧
      (retryWithBackoff m b cbOpt o st).sleeps =
        (List.range ((retryWithBackoff m b cbOpt o st).attempts - 1)).map
          (fun i => b * 2 ^ i) ∧
      (∀ err, 1 ≤ m → (retryWithBackoff m b cbOpt o st).outcome = .error err →
        (retryWithBackoff m b cbOpt o st).attemptResults.getLast?.bind callErr
          = some err)) ∧
    retryWithBackoff 3 1 none
        (fun i => if i < 2 then (Except.error i : Except ℕ Unit) else .ok ()) 0 =
      ⟨3, 3, [1, 2], [.funcFailed 0, .funcFailed 1, .ok ()], .ok (), none⟩ := by
  constructor
  · intro A m b cbOpt o st
    refine ⟨?_, ?_, ?_, ?_⟩
    · simpa using retryAux_attempts_le b o m 0 0 st cbOpt none [] []
    · exact retryAux_funcCalls_le b o m 0 0 st cbOpt none [] [] (le_refl 0)
    · exact retryAux_sleeps b o m 0 0 st cbOpt none [] [] (fun _ => rfl) (by simp)
    · intro err hm hout
      exact retryAux_lastErr b o m 0 0 st cbOpt none [] []
        (fun h0 => absurd (h0 ▸ hm) (by norm_num)) rfl (Or.inl rfl) err hout
  · have ho0 : (fun i => if i < 2 then (Except.error i : Except ℕ Unit) else .ok ()) 0
        = Except.error 0 := by norm_num
    have ho1 : (fun i => if i < 2 then (Except.error i : Except ℕ Unit) else .ok ()) (0 + 1)
        = Except.error 1 := by norm_num
    have ho2 : (fun i => if i < 2 then (Except.error i : Except ℕ Unit) else .ok ()) (0 + 1 + 1)
        = Except.ok () := by norm_num
    have h0 : (attemptOnce none (0:ℚ)
        ((fun i => if i < 2 then (Except.error i : Except ℕ Unit) else .ok ()) 0)).1
        = CallResult.funcFailed 0 := by rw [ho0, attemptOnce_none_err]
    have ha0 : (attemptOnce none (0:ℚ)
        ((fun i => if i < 2 then (Except.error i : Except ℕ Unit) else .ok ()) 0)).2
        = none := by rw [ho0, attemptOnce_none_err]
    have h1 : (attemptOnce none (0 + 1 * 2 ^ 0 : ℚ)
        ((fun i => if i < 2 then (Except.error i : Except ℕ Unit) else .ok ()) (0 + 1))).1
        = CallResult.funcFailed 1 := by rw [ho1, attemptOnce_none_err]
    have ha1 : (attemptOnce none (0 + 1 * 2 ^ 0 : ℚ)
        ((fun i => if i < 2 then (Except.error i : Except ℕ Unit) else .ok ()) (0 + 1))).2
        = none := by rw [ho1, attemptOnce_none_err]
    have h2 : (attemptOnce none (0 + 1 * 2 ^ 0 + 1 * 2 ^ (0 + 1) : ℚ)
        ((fun i => if i < 2 then (Except.error i : Except ℕ Unit) else .ok ()) (0 + 1 + 1))).1
        = CallResult.ok () := by rw [ho2, attemptOnce_none_ok]
    have ha2 : (attemptOnce none (0 + 1 * 2 ^ 0 + 1 * 2 ^ (0 + 1) : ℚ)
        ((fun i => if i < 2 then (Except.error i : Except ℕ Unit) else .ok ()) (0 + 1 + 1))).2
        = none := by rw [ho2, attemptOnce_none_ok]
    unfold retryWithBackoff
    rw [retryAux_step_funcFailed
        (fun i => if i < 2 then (Except.error i : Except ℕ Unit) else .ok ()) 0 h0,
      ha0,
      retryAux_step_funcFailed
        (fun i => if i < 2 then (Except.error i : Except ℕ Unit) else .ok ()) (0 + 1) h1,
      ha1,
      retryAux_step_ok
        (fun i => if i < 2 then (Except.error i : Except ℕ Unit) else .ok ()) (0 + 1 + 1) h2,
      ha2]
    norm_num

/-- Witness for C4: two failing attempts with `max_retries = 2` surface
the second attempt's exception. -/
theorem claim_C4_retry_witness :
    (retryWithBackoff 2 1 none (fun i => (Except.error i : Except ℕ Unit)) 0).attempts
      ≤ 2 ∧
    ((1:ℕ) ≤ 2 ∧
      (retryWithBackoff 2 1 none (fun i => (Except.error i : Except ℕ Unit)) 0).outcome
        = .error (.funcError 1)) ∧
    (retryWithBackoff 2 1 none
        (fun i => (Except.error i : Except ℕ Unit)) 0).attemptResults.getLast?.bind callErr
      = some (.funcError 1) := by
  have h0 : (attemptOnce none (0:ℚ)
      ((fun i => (Except.error i : Except ℕ Unit)) 0)).1 = CallResult.funcFailed 0 :=
    rfl
  have ha0 : (attemptOnce none (0:ℚ)
      ((fun i => (Except.error i : Except ℕ Unit)) 0)).2 = none := rfl
  have h1 : (attemptOnce none (0 + 1 * 2 ^ 0 : ℚ)
      ((fun i => (Except.error i : Except ℕ Unit)) (0 + 1))).1
      = CallResult.funcFailed (0 + 1) := rfl
  have hrun : retryWithBackoff 2 1 none
      (fun i => (Except.error i : Except ℕ Unit)) 0 =
      ⟨2, 2, [1], [.funcFailed 0, .funcFailed 1], .error (.funcError 1), none⟩ := by
    unfold retryWithBackoff
    rw [retryAux_step_funcFailed (fun i => (Except.error i : Except ℕ Unit)) 0 h0,
      ha0,
      retryAux_last_funcFailed (fun i => (Except.error i : Except ℕ Unit)) (0 + 1) h1]
    norm_num [attemptOnce]
  have hout : (retryWithBackoff 2 1 none
      (fun i => (Except.error i : Except ℕ Unit)) 0).outcome
      = .error (.funcError 1) := by rw [hrun]
  refine ⟨(claim_C4_retry.1 Unit 2 1 none _ 0).1, ⟨by norm_num, hout⟩, ?_⟩
  exact (claim_C4_retry.1 Unit 2 1 none _ 0).2.2.2 _ (by norm_num) hout

/-! ## C5: buffering of outbound sends -/

/-- C5 counterexample.  A client with buffering **enabled** (and a healthy
closed breaker): `collect_drift_metric` still performs a network request
(`networkAttempts = 1`, not `0`) and enqueues nothing — the drift path
never consults `buffer_enabled` before attempting network I/O. -/
theorem claim_C5_buffering_counterexample :
    collectDriftMetric ⟨3, 1, 1000, some ⟨5, 60, 0, none, .closed⟩, [], true⟩ 7
        (fun _ => true) 0 =
      ⟨true, 1, [], ⟨3, 1, 1000, some ⟨5, 60, 0, none, .closed⟩, [], true⟩⟩ ∧
    (⟨3, 1, 1000, some ⟨5, 60, 0, none, .closed⟩, [], true⟩
      : MonitorXClient).bufferEnabled = true := by
  have hcall : (⟨5, 60, 0, none, .closed⟩ : CircuitBreaker).callAsync 0
      (Except.ok true : Except ℕ Bool) = (.ok true, ⟨5, 60, 0, none, .closed⟩) := by
    rw [callAsync_notOpen (by decide), proceed_ok, if_neg (by decide)]
  have h0 : (attemptOnce (some ⟨5, 60, 0, none, .closed⟩) 0
      ((requestOutcomes (fun _ => true)) 0)).1 = CallResult.ok true := by
    rw [show (requestOutcomes (fun _ => true)) 0 = (Except.ok true : Except ℕ Bool)
      from rfl, attemptOnce_some, hcall]
  have ha0 : (attemptOnce (some ⟨5, 60, 0, none, .closed⟩) 0
      ((requestOutcomes (fun _ => true)) 0)).2
      = some ⟨5, 60, 0, none, .closed⟩ := by
    rw [show (requestOutcomes (fun _ => true)) 0 = (Except.ok true : Except ℕ Bool)
      from rfl, attemptOnce_some, hcall]
  have hr : retryWithBackoff 3 1 (some ⟨5, 60, 0, none, .closed⟩)
      (requestOutcomes (fun _ => true)) 0 =
      ⟨1, 1, [], [.ok true], .ok true, some ⟨5, 60, 0, none, .closed⟩⟩ := by
    unfold retryWithBackoff
    rw [retryAux_step_ok (requestOutcomes (fun _ => true)) 0 h0, ha0]
    norm_num
  refine ⟨?_, rfl⟩
  unfold collectDriftMetric collectMetricRequestWithRetry
  rw [hr]

/-- C5 (amended).  When buffering is enabled, the single-inference-metric
and batch entry points enqueue synchronously and report success without
any network attempt; `collect_drift_metric`, however, never consults the
flag — it always goes to the retry helper — and the retry helpers enqueue
the payload (returning `False`, not success) exactly when the retry path
raises (e.g. breaker-open); when the retry path returns a swallowed
boolean, nothing is enqueued even on network failure. -/
theorem claim_C5_buffering :
    (∀ (c : MonitorXClient) (p : ℕ) (net : ℕ → Bool) (now : ℚ),
      c.bufferEnabled = true →
      collectInferenceMetric c p net now =
        ⟨true, 0, [],
         { c with metricBuffer :=
            pushBounded c.bufferSize c.metricBuffer ⟨.inference, p⟩ }⟩) ∧
    (∀ (c : MonitorXClient) (payloads : List ℕ) (net : ℕ → Bool) (now : ℚ),
      c.bufferEnabled = true → payloads ≠ [] →
      collectInferenceMetricsBatch c payloads net now =
        ⟨payloads.length, 0, 0,
         { c with metricBuffer :=
            (payloads.foldl (fun b p => pushBounded c.bufferSize b ⟨.inference, p⟩)
              c.metricBuffer) }⟩) ∧
    (∀ (c : MonitorXClient) (p : ℕ) (net : ℕ → Bool) (now : ℚ),
      collectDriftMetric c p net now =
        collectMetricRequestWithRetry c .drift p net now) ∧
    (∀ (c : MonitorXClient) (kind : MetricKind) (p : ℕ) (net : ℕ → Bool)
        (now : ℚ) (err : RetryError),
      (retryWithBackoff c.maxRetries c.retryBackoff c.circuitBreaker
        (requestOutcomes net) now).outcome = .error err →
      c.bufferEnabled = true →
      collectMetricRequestWithRetry c kind p net now =
        ⟨false,
         (retryWithBackoff c.maxRetries c.retryBackoff c.circuitBreaker
           (requestOutcomes net) now).funcCalls,
         (retryWithBackoff c.maxRetries c.retryBackoff c.circuitBreaker
           (requestOutcomes net) now).sleeps,
         { c with
            circuitBreaker :=
              (retryWithBackoff c.maxRetries c.retryBackoff c.circuitBreaker
                (requestOutcomes net) now).breaker,
            metricBuffer :=
              pushBounded c.bufferSize c.metricBuffer ⟨kind, p⟩ }⟩) ∧
    (∀ (c : MonitorXClient) (kind : MetricKind) (p : ℕ) (net : ℕ → Bool)
        (now : ℚ) (b : Bool),
      (retryWithBackoff c.maxRetries c.retryBackoff c.circuitBreaker
        (requestOutcomes net) now).outcome = .ok b →
      collectMetricRequestWithRetry c kind p net now =
        ⟨b,
         (retryWithBackoff c.maxRetries c.retryBackoff c.circuitBreaker
           (requestOutcomes net) now).funcCalls,
         (retryWithBackoff c.maxRetries c.retryBackoff c.circuitBreaker
           (requestOutcomes net) now).sleeps,
         { c with
            circuitBreaker :=
              (retryWithBackoff c.maxRetries c.retryBackoff c.circuitBreaker
                (requestOutcomes net) now).breaker }⟩) := by
  refine ⟨?_, ?_, ?_, ?_, ?_⟩
  · intro c p net now hbuf
    unfold collectInferenceMetric
    rw [hbuf]
    rfl
  · intro c payloads net now hbuf hpay
    unfold collectInferenceMetricsBatch
    rw [if_neg hpay, hbuf]
    rfl
  · intro c p net now
    rfl
  · intro c kind p net now err hout hbuf
    simp only [collectMetricRequestWithRetry, hout, hbuf, if_true]
  · intro c kind p net now b hout
    simp only [collectMetricRequestWithRetry, hout]

/-- Witness for C5 (amended): buffering-enabled inference send enqueues
without I/O; a buffering-enabled client with an already-open breaker
enqueues the drift payload after the retry path raises breaker-open. -/
theorem claim_C5_buffering_witness :
    (collectInferenceMetric ⟨3, 1, 1000, some ⟨5, 60, 0, none, .closed⟩, [], true⟩ 5
        (fun _ => true) 0 =
      ⟨true, 0, [],
       { (⟨3, 1, 1000, some ⟨5, 60, 0, none, .closed⟩, [], true⟩ : MonitorXClient) with
          metricBuffer := pushBounded 1000 [] ⟨.inference, 5⟩ }⟩) ∧
    (collectMetricRequestWithRetry
        ⟨3, 1, 1000, some ⟨5, 60, 5, some 0, .opened⟩, [], true⟩ .drift 7
        (fun _ => true) 0 =
      ⟨false,
       (retryWithBackoff 3 1 (some ⟨5, 60, 5, some 0, .opened⟩)
         (requestOutcomes (fun _ => true)) 0).funcCalls,
       (retryWithBackoff 3 1 (some ⟨5, 60, 5, some 0, .opened⟩)
         (requestOutcomes (fun _ => true)) 0).sleeps,
       { (⟨3, 1, 1000, some ⟨5, 60, 5, some 0, .opened⟩, [], true⟩ : MonitorXClient) with
          circuitBreaker :=
            (retryWithBackoff 3 1 (some ⟨5, 60, 5, some 0, .opened⟩)
              (requestOutcomes (fun _ => true)) 0).breaker,
          metricBuffer := pushBounded 1000 [] ⟨.drift, 7⟩ }⟩) := by
  constructor
  · exact claim_C5_buffering.1 _ 5 (fun _ => true) 0 rfl
  · refine claim_C5_buffering.2.2.2.1 _ .drift 7 (fun _ => true) 0 .breakerOpen ?_ rfl
    have h := retryAux_openAll 1 (requestOutcomes (fun _ => true)) (by norm_num)
      3 0 0 0 (⟨5, 60, 5, some 0, .opened⟩ : CircuitBreaker) none [] []
      (by norm_num) rfl (by norm_num)
    unfold retryWithBackoff
    rw [h]

/-! ## C6: buffer flush -/

/-- Did processing this buffered item return (rather than raise)? -/
def FlushStep.isReturned : FlushStep → Bool
  | .returned _ => true
  | .raised => false

/-- Did processing this buffered item raise? -/
def FlushStep.isRaised : FlushStep → Bool
  | .returned _ => false
  | .raised => true

/-- Did the direct request for this item actually report delivery? -/
def FlushStep.isDelivered : FlushStep → Bool
  | .returned b => b
  | .raised => false

@[simp] theorem isReturned_returned (b : Bool) :
    (FlushStep.returned b).isReturned = true := rfl

@[simp] theorem isReturned_raised : FlushStep.raised.isReturned = false := rfl

@[simp] theorem isRaised_returned (b : Bool) :
    (FlushStep.returned b).isRaised = false := rfl

@[simp] theorem isRaised_raised : FlushStep.raised.isRaised = true := rfl

@[simp] theorem isDelivered_returned (b : Bool) :
    (FlushStep.returned b).isDelivered = b := rfl

@[simp] theorem isDelivered_raised : FlushStep.raised.isDelivered = false := rfl

theorem flushFold_spec (deliver : ℕ → BufferedItem → FlushStep) :
    ∀ (l : List (ℕ × BufferedItem)) (x y z : ℕ),
      (l.foldl (fun (acc : ℕ × ℕ × ℕ) it =>
        match deliver it.1 it.2 with
        | .returned b => (acc.1 + 1, acc.2.1, acc.2.2 + (if b then 1 else 0))
        | .raised => (acc.1, acc.2.1 + 1, acc.2.2)) (x, y, z)) =
      (x + (l.filter (fun it => (deliver it.1 it.2).isReturned)).length,
       y + (l.filter (fun it => (deliver it.1 it.2).isRaised)).length,
       z + (l.filter (fun it => (deliver it.1 it.2).isDelivered)).length) := by
  intro l
  induction l with
  | nil => intro x y z; simp
  | cons hd tl ih =>
    intro x y z
    rw [List.foldl_cons]
    cases hstep : deliver hd.1 hd.2 with
    | returned b =>
      simp only [hstep]
      rw [ih]
      cases b <;>
        simp [List.filter_cons, hstep, FlushStep.isReturned, FlushStep.isRaised,
          FlushStep.isDelivered] <;> omega
    | raised =>
      simp only [hstep]
      rw [ih]
      simp [List.filter_cons, hstep, FlushStep.isReturned, FlushStep.isRaised,
        FlushStep.isDelivered]
      omega

/-- C6 counterexample.  One buffered inference metric whose direct request
swallows a network failure and returns `False`: `flush_buffer` reports it
as **flushed** (`{"flushed": 1, "failed": 0}`) although zero items were
actually delivered — `flushed` does not count items actually delivered. -/
theorem claim_C6_flush_counterexample :
    flushBuffer ⟨3, 1, 1000, some ⟨5, 60, 0, none, .closed⟩, [⟨.inference, 0⟩], false⟩
        (fun _ _ => .returned false) =
      ⟨1, 0, 0,
       ⟨3, 1, 1000, some ⟨5, 60, 0, none, .closed⟩, [], false⟩⟩ := by
  unfold flushBuffer
  rw [if_neg (by simp)]
  rfl

/-- C6 (amended).  `flush_buffer` drains the buffer strictly in FIFO
order (each item at position `i` is processed with its own direct
request), leaves the buffer empty, restores the original `buffer_enabled`
flag, re-enqueues nothing — but each item is sent with a **single direct
request** (no retry/breaker path, so the client's breaker, sleeps and
retry counters are untouched), `flushed` counts the items whose request
returned (even when it reported delivery failure), and `failed` counts
the items whose processing raised; `flushed + failed` covers the whole
buffer and the actually-delivered count is bounded by `flushed`. -/
theorem claim_C6_flush (c : MonitorXClient)
    (deliver : ℕ → BufferedItem → FlushStep) :
    (flushBuffer c deliver).client.metricBuffer = [] ∧
    (flushBuffer c deliver).client.bufferEnabled = c.bufferEnabled ∧
    (flushBuffer c deliver).client.circuitBreaker = c.circuitBreaker ∧
    (flushBuffer c deliver).flushed =
      (c.metricBuffer.enum.filter
        (fun it => (deliver it.1 it.2).isReturned)).length ∧
    (flushBuffer c deliver).failed =
      (c.metricBuffer.enum.filter
        (fun it => (deliver it.1 it.2).isRaised)).length ∧
    (flushBuffer c deliver).delivered =
      (c.metricBuffer.enum.filter
        (fun it => (deliver it.1 it.2).isDelivered)).length ∧
    (flushBuffer c deliver).flushed + (flushBuffer c deliver).failed =
      c.metricBuffer.length := by
  by_cases hemp : c.metricBuffer = []
  · unfold flushBuffer
    rw [if_pos hemp]
    simp [hemp]
  · unfold flushBuffer
    rw [if_neg hemp]
    rw [flushFold_spec]
    have hlen : (c.metricBuffer.enum.filter
          (fun it => (deliver it.1 it.2).isReturned)).length +
        (c.metricBuffer.enum.filter
          (fun it => (deliver it.1 it.2).isRaised)).length =
        c.metricBuffer.length := by
      have hsplit : ∀ (l : List (ℕ × BufferedItem)),
          (l.filter (fun it => (deliver it.1 it.2).isReturned)).length +
          (l.filter (fun it => (deliver it.1 it.2).isRaised)).length = l.length := by
        intro l
        induction l with
        | nil => simp
        | cons hd tl ih =>
          rw [List.filter_cons, List.filter_cons]
          cases hstep : deliver hd.1 hd.2 <;> simp [hstep] <;> omega
      rw [hsplit, List.enum_length]
    refine ⟨rfl, rfl, rfl, by simp, by simp, by simp, ?_⟩
    simpa using hlen

/-! ## Alerting step lemmas -/

theorem historyGet_cons (k1 : String) (v1 : ℚ) (rest : List (String × ℚ))
    (k : String) :
    historyGet ((k1, v1) :: rest) k =
      if k1 = k then some v1 else historyGet rest k := rfl

theorem historySet_cons (k1 : String) (v1 : ℚ) (rest : List (String × ℚ))
    (k : String) (v : ℚ) :
    historySet ((k1, v1) :: rest) k v =
      if k1 = k then (k, v) :: rest else (k1, v1) :: historySet rest k v := rfl

theorem historyGet_historySet (h : List (String × ℚ)) (k : String) (v : ℚ) :
    historyGet (historySet h k v) k = some v := by
  induction h with
  | nil => simp [historySet, historyGet]
  | cons hd tl ih =>
    obtain ⟨k1, v1⟩ := hd
    rw [historySet_cons]
    by_cases hk : k1 = k
    · rw [if_pos hk, historyGet_cons, if_pos rfl]
    · rw [if_neg hk, historyGet_cons, if_neg hk]
      exact ih

theorem sendAlert_suppressed {svc : AlertingService} {a : AlertMsg} {now last : ℚ}
    (hget : historyGet svc.history (rateLimitKey a) = some last)
    (hlt : now - last < svc.rateLimitWindow)
    (channels : List Channel) (handlers : List HandlerOutcome) :
    sendAlert svc a now channels handlers = ⟨false, 0, 0, 0, svc⟩ := by
  simp only [sendAlert, hget]
  rw [if_pos (by simpa using hlt)]

theorem sendAlert_fresh {svc : AlertingService} {a : AlertMsg} {now : ℚ}
    (hget : historyGet svc.history (rateLimitKey a) = none)
    (channels : List Channel) (handlers : List HandlerOutcome) :
    sendAlert svc a now channels handlers =
      ⟨true, (channels.filter (·.enabled)).length, handlers.length,
       ((channels.filter (·.enabled)).filter (·.outcome = .raised)).length
         + (handlers.filter (· = .raised)).length,
       { svc with history := historySet svc.history (rateLimitKey a) now }⟩ := by
  simp only [sendAlert, hget]
  rw [if_neg (by simp)]

theorem sendAlert_elapsed {svc : AlertingService} {a : AlertMsg} {now last : ℚ}
    (hget : historyGet svc.history (rateLimitKey a) = some last)
    (hge : svc.rateLimitWindow ≤ now - last)
    (channels : List Channel) (handlers : List HandlerOutcome) :
    sendAlert svc a now channels handlers =
      ⟨true, (channels.filter (·.enabled)).length, handlers.length,
       ((channels.filter (·.enabled)).filter (·.outcome = .raised)).length
         + (handlers.filter (· = .raised)).length,
       { svc with history := historySet svc.history (rateLimitKey a) now }⟩ := by
  simp only [sendAlert, hget]
  rw [if_neg (by simpa using not_lt.mpr hge)]

theorem sendAlert_dispatched_svc {svc : AlertingService} {a : AlertMsg} {now : ℚ}
    {channels : List Channel} {handlers : List HandlerOutcome}
    (hd : (sendAlert svc a now channels handlers).dispatched = true) :
    (sendAlert svc a now channels handlers).svc =
      { svc with history := historySet svc.history (rateLimitKey a) now } := by
  cases hget : historyGet svc.history (rateLimitKey a) with
  | none => rw [sendAlert_fresh hget]
  | some last =>
    by_cases hlt : now - last < svc.rateLimitWindow
    · rw [sendAlert_suppressed hget hlt] at hd
      cases hd
    · rw [sendAlert_elapsed hget (not_lt.mp hlt)]

/-! ## C7: alert dedup cool-down -/

/-- C7.  Alert dedup invariant of `send_alert`: an alert whose key was
dispatched within the cool-down window is suppressed entirely — no
channels attempted, no custom handlers invoked, service state unchanged;
a dispatched alert stamps the key with its own time; two alerts with the
same key within the window produce exactly one dispatch (the second is
suppressed), and a third alert after the window has elapsed is dispatched
again. -/
theorem claim_C7_alert_dedup :
    (∀ (svc : AlertingService) (a : AlertMsg) (now last : ℚ)
        (channels : List Channel) (handlers : List HandlerOutcome),
      historyGet svc.history (rateLimitKey a) = some last →
      now - last < svc.rateLimitWindow →
      sendAlert svc a now channels handlers = ⟨false, 0, 0, 0, svc⟩) ∧
    (∀ (svc : AlertingService) (a : AlertMsg) (now : ℚ)
        (channels : List Channel) (handlers : List HandlerOutcome),
      (sendAlert svc a now channels handlers).dispatched = true →
      historyGet (sendAlert svc a now channels handlers).svc.history
        (rateLimitKey a) = some now) ∧
    (∀ (svc : AlertingService) (a : AlertMsg) (t t' t'' : ℚ)
        (ch1 ch2 ch3 : List Channel) (h1 h2 h3 : List HandlerOutcome),
      (sendAlert svc a t ch1 h1).dispatched = true →
      t' - t < svc.rateLimitWindow →
      svc.rateLimitWindow ≤ t'' - t →
      sendAlert (sendAlert svc a t ch1 h1).svc a t' ch2 h2 =
        ⟨false, 0, 0, 0, (sendAlert svc a t ch1 h1).svc⟩ ∧
      (sendAlert (sendAlert svc a t ch1 h1).svc a t'' ch3 h3).dispatched
        = true) := by
  have hstamp : ∀ (svc : AlertingService) (a : AlertMsg) (now : ℚ)
      (channels : List Channel) (handlers : List HandlerOutcome),
      (sendAlert svc a now channels handlers).dispatched = true →
      historyGet (sendAlert svc a now channels handlers).svc.history
        (rateLimitKey a) = some now := by
    intro svc a now channels handlers hd
    rw [sendAlert_dispatched_svc hd]
    exact historyGet_historySet _ _ _
  refine ⟨?_, hstamp, ?_⟩
  · intro svc a now last channels handlers hget hlt
    exact sendAlert_suppressed hget hlt channels handlers
  · intro svc a t t' t'' ch1 ch2 ch3 h1 h2 h3 hd hlt hge
    have hwin : (sendAlert svc a t ch1 h1).svc.rateLimitWindow =
        svc.rateLimitWindow := by
      rw [sendAlert_dispatched_svc hd]
    have hget : historyGet (sendAlert svc a t ch1 h1).svc.history
        (rateLimitKey a) = some t := hstamp svc a t ch1 h1 hd
    constructor
    · exact sendAlert_suppressed hget (by rw [hwin]; exact hlt) ch2 h2
    · rw [sendAlert_elapsed hget (by rw [hwin]; exact hge) ch3 h3]

/-- Witness for C7: key `m1:latency:critical`, window 300 s, alerts at
times 0 (dispatched), 10 (suppressed) and 310 (dispatched again). -/
theorem claim_C7_alert_dedup_witness :
    (sendAlert ⟨300, []⟩ ⟨"m1", "latency", .critical⟩ 0 [] []).dispatched = true ∧
    sendAlert (sendAlert ⟨300, []⟩ ⟨"m1", "latency", .critical⟩ 0 [] []).svc
        ⟨"m1", "latency", .critical⟩ 10 [] [] =
      ⟨false, 0, 0, 0, (sendAlert ⟨300, []⟩ ⟨"m1", "latency", .critical⟩ 0 [] []).svc⟩ ∧
    (sendAlert (sendAlert ⟨300, []⟩ ⟨"m1", "latency", .critical⟩ 0 [] []).svc
        ⟨"m1", "latency", .critical⟩ 310 [] []).dispatched = true := by
  have hd1 : (sendAlert (⟨300, []⟩ : AlertingService)
      ⟨"m1", "latency", .critical⟩ 0 [] []).dispatched = true := by
    rw [sendAlert_fresh (show historyGet (⟨300, []⟩ : AlertingService).history
      (rateLimitKey ⟨"m1", "latency", .critical⟩) = none from rfl)]
  have hrest := claim_C7_alert_dedup.2.2 ⟨300, []⟩ ⟨"m1", "latency", .critical⟩
    0 10 310 [] [] [] [] [] [] hd1 (by norm_num) (by norm_num)
  exact ⟨hd1, hrest.1, hrest.2⟩

/-! ## C8: channel/handler failure isolation -/

/-- Filter-by-enabled length only depends on the enabled flags. -/
theorem filter_enabled_length_eq :
    ∀ (l1 l2 : List Channel), l1.map Channel.enabled = l2.map Channel.enabled →
      (l1.filter (·.enabled)).length = (l2.filter (·.enabled)).length := by
  intro l1
  induction l1 with
  | nil =>
    intro l2 h
    cases l2 with
    | nil => rfl
    | cons hd tl => cases h
  | cons hd tl ih =>
    intro l2 h
    cases l2 with
    | nil => cases h
    | cons hd2 tl2 =>
      simp only [List.map_cons, List.cons.injEq] at h
      rw [List.filter_cons, List.filter_cons, h.1]
      cases hd2.enabled <;> simp [ih tl2 h.2]

/-- C8.  For every dispatched alert: every enabled channel gets a delivery
attempt and every custom handler is invoked, whatever the outcomes of the
other channels and handlers (the attempt/invocation counts depend only on
the enabled flags and the number of handlers, never on which of them
raise); each raising channel or handler is logged individually; and
`send_alert` returns normally — exceptions never propagate to the
caller. -/
theorem claim_C8_channel_isolation (svc : AlertingService) (a : AlertMsg)
    (now : ℚ) (channels : List Channel) (handlers : List HandlerOutcome)
    (hd : (sendAlert svc a now channels handlers).dispatched = true) :
    (sendAlert svc a now channels handlers).channelsAttempted =
      (channels.filter (·.enabled)).length ∧
    (sendAlert svc a now channels handlers).handlersInvoked = handlers.length ∧
    (sendAlert svc a now channels handlers).errorsLogged =
      ((channels.filter (·.enabled)).filter (·.outcome = .raised)).length
        + (handlers.filter (· = .raised)).length ∧
    (∀ (channels' : List Channel) (handlers' : List HandlerOutcome),
      channels'.map Channel.enabled = channels.map Channel.enabled →
      handlers'.length = handlers.length →
      (sendAlert svc a now channels' handlers').channelsAttempted =
        (sendAlert svc a now channels handlers).channelsAttempted ∧
      (sendAlert svc a now channels' handlers').handlersInvoked =
        (sendAlert svc a now channels handlers).handlersInvoked) := by
  have hsend : ∀ (ch : List Channel) (hs : List HandlerOutcome),
      sendAlert svc a now ch hs =
        ⟨true, (ch.filter (·.enabled)).length, hs.length,
         ((ch.filter (·.enabled)).filter (·.outcome = .raised)).length
           + (hs.filter (· = .raised)).length,
         { svc with history := historySet svc.history (rateLimitKey a) now }⟩ := by
    intro ch hs
    cases hget : historyGet svc.history (rateLimitKey a) with
    | none => exact sendAlert_fresh hget ch hs
    | some last =>
      by_cases hlt : now - last < svc.rateLimitWindow
      · rw [sendAlert_suppressed hget hlt channels handlers] at hd
        cases hd
      · exact sendAlert_elapsed hget (not_lt.mp hlt) ch hs
  refine ⟨by rw [hsend], by rw [hsend], by rw [hsend], ?_⟩
  intro channels' handlers' hmap hlen
  rw [hsend, hsend]
  exact ⟨filter_enabled_length_eq channels' channels hmap, hlen⟩

/-- Witness for C8: one raising channel, one delivering channel, one
disabled channel and one raising handler — both enabled channels are
attempted, the handler is invoked, the two failures are logged. -/
theorem claim_C8_channel_isolation_witness :
    (sendAlert ⟨300, []⟩ ⟨"m1", "latency", .high⟩ 0
        [⟨true, .raised⟩, ⟨true, .delivered⟩, ⟨false, .delivered⟩]
        [.raised]).dispatched = true ∧
    (sendAlert ⟨300, []⟩ ⟨"m1", "latency", .high⟩ 0
        [⟨true, .raised⟩, ⟨true, .delivered⟩, ⟨false, .delivered⟩]
        [.raised]).channelsAttempted =
      ([⟨true, .raised⟩, ⟨true, .delivered⟩,
        (⟨false, .delivered⟩ : Channel)].filter (·.enabled)).length := by
  have hd : (sendAlert (⟨300, []⟩ : AlertingService) ⟨"m1", "latency", .high⟩ 0
      [⟨true, .raised⟩, ⟨true, .delivered⟩, ⟨false, .delivered⟩]
      [.raised]).dispatched = true := by
    rw [sendAlert_fresh (show historyGet (⟨300, []⟩ : AlertingService).history
      (rateLimitKey ⟨"m1", "latency", .high⟩) = none from rfl)]
  exact ⟨hd, (claim_C8_channel_isolation ⟨300, []⟩ ⟨"m1", "latency", .high⟩ 0
    [⟨true, .raised⟩, ⟨true, .delivered⟩, ⟨false, .delivered⟩] [.raised] hd).1⟩

/-! ## C9: sliding-window rate limiter -/

/-- Monotone: Python `int()` truncation preserves order. -/
theorem pyInt_mono {a c : ℚ} (h : a ≤ c) : pyInt a ≤ pyInt c := by
  unfold pyInt
  split_ifs with h1 h2 h2
  · exact Int.floor_le_floor h
  · linarith
  · have hna : (0:ℤ) ≤ ⌊-a⌋ := Int.floor_nonneg.mpr (by linarith)
    have hc : (0:ℤ) ≤ ⌊c⌋ := Int.floor_nonneg.mpr h2
    omega
  · have : ⌊-c⌋ ≤ ⌊-a⌋ := Int.floor_le_floor (by linarith)
    omega

/-- C9.  `is_allowed` sums the recorded counts whose timestamps lie inside
the trailing window `(now − window, now]` and admits the request iff that
sum is strictly below the limit: in particular a request arriving when the
in-window sum has already reached the limit (the 101st request of a
100-limit window) is rejected, and once every recorded entry has aged out
of the window a request is admitted again; every decision reports
`limit` and `remaining = max(0, limit − sum)` in its metadata. -/
theorem claim_C9_rate_limit (rl : RateLimiter) (now : ℚ) :
    ((isAllowed rl now).1 = true ↔
      ((rl.requests.filter (fun e => now - rl.windowSeconds < e.1)).map (·.2)).sum
        < rl.requestsPerWindow) ∧
    (isAllowed rl now).2.1.limit = rl.requestsPerWindow ∧
    ((isAllowed rl now).2.1.remaining : ℤ) =
      max 0 ((rl.requestsPerWindow : ℤ) -
        ((rl.requests.filter (fun e => now - rl.windowSeconds < e.1)).map (·.2)).sum) ∧
    (rl.requestsPerWindow ≤
      ((rl.requests.filter (fun e => now - rl.windowSeconds < e.1)).map (·.2)).sum →
      (isAllowed rl now).1 = false) ∧
    ((∀ e ∈ rl.requests, e.1 ≤ now - rl.windowSeconds) →
      0 < rl.requestsPerWindow → (isAllowed rl now).1 = true) := by
  refine ⟨?_, ?_, ?_, ?_, ?_⟩
  · simp only [isAllowed]
    split_ifs with h
    · simpa using h
    · simpa using not_le.mp h
  · simp only [isAllowed]
    split_ifs <;> rfl
  · simp only [isAllowed]
    split_ifs <;> dsimp only <;> omega
  · intro h
    simp only [isAllowed]
    rw [if_pos h]
  · intro haged hpos
    have hfil : rl.requests.filter (fun e => now - rl.windowSeconds < e.1) = [] := by
      rw [List.filter_eq_nil_iff]
      intro e he
      simpa using not_lt.mpr (haged e he)
    simp only [isAllowed]
    rw [if_neg (by rw [hfil]; simpa using Nat.pos_iff_ne_zero.mp hpos)]

/-- Witness for C9: limit 100, window 60 s, a single recorded entry worth
100 requests at time 0 — at time 30 the entry is in-window and the request
is rejected; at time 90 it has aged out and the request is admitted. -/
theorem claim_C9_rate_limit_witness :
    (100 ≤ (((⟨100, 60, [(0, 100)]⟩ : RateLimiter).requests.filter
        (fun e => (30:ℚ) - 60 < e.1)).map (·.2)).sum ∧
      (isAllowed ⟨100, 60, [(0, 100)]⟩ 30).1 = false) ∧
    ((∀ e ∈ (⟨100, 60, [(0, 100)]⟩ : RateLimiter).requests,
        e.1 ≤ (90:ℚ) - 60) ∧
      (isAllowed ⟨100, 60, [(0, 100)]⟩ 90).1 = true) := by
  have hsum : 100 ≤ (((⟨100, 60, [(0, 100)]⟩ : RateLimiter).requests.filter
      (fun e => (30:ℚ) - 60 < e.1)).map (·.2)).sum := by
    norm_num [List.filter]
  have haged : ∀ e ∈ (⟨100, 60, [(0, 100)]⟩ : RateLimiter).requests,
      e.1 ≤ (90:ℚ) - 60 := by
    intro e he
    simp only [List.mem_singleton] at he
    rw [he]
    norm_num
  refine ⟨⟨hsum, ?_⟩, ⟨haged, ?_⟩⟩
  · exact (claim_C9_rate_limit ⟨100, 60, [(0, 100)]⟩ 30).2.2.2.1 hsum
  · exact (claim_C9_rate_limit ⟨100, 60, [(0, 100)]⟩ 90).2.2.2.2 haged (by norm_num)

/-! ## C10: reset metadata and Retry-After guidance -/

/-- C10.  The `reset` value of every rate-limit decision equals
`int(window_start + window_seconds)` = the **current** time truncated to
whole seconds, so the middleware's `retry_after = reset − int(time.time())`,
computed at any instant at or after the decision, is never positive:
rejected clients always receive a zero-or-negative Retry-After. -/
theorem claim_C10_retry_after (rl : RateLimiter) (now tNow : ℚ)
    (h : now ≤ tNow) :
    (isAllowed rl now).2.1.reset = pyInt now ∧
    retryAfter (isAllowed rl now).2.1 tNow ≤ 0 := by
  have hreset : (isAllowed rl now).2.1.reset = pyInt now := by
    simp only [isAllowed]
    split_ifs <;> dsimp only <;> rw [sub_add_cancel]
  refine ⟨hreset, ?_⟩
  unfold retryAfter
  rw [hreset]
  have := pyInt_mono h
  omega

/-- Witness for C10 at `now = 30.5`, `tNow = 45`: the reset epoch is 30
and the computed retry-after is non-positive. -/
theorem claim_C10_retry_after_witness :
    ((30.5:ℚ) ≤ 45) ∧
    (isAllowed ⟨100, 60, [(0, 100)]⟩ 30.5).2.1.reset = pyInt 30.5 ∧
    retryAfter (isAllowed ⟨100, 60, [(0, 100)]⟩ 30.5).2.1 45 ≤ 0 := by
  have h := claim_C10_retry_after ⟨100, 60, [(0, 100)]⟩ 30.5 45 (by norm_num)
  exact ⟨by norm_num, h.1, h.2⟩

end MonitorX
